import Mathlib

/-!
Shallow embedding of "repetedwords.py", a word-frequency counter.

The program reads a text file line by line, splits each line on whitespace,
normalizes each token (lowercase + punctuation stripping unless the
case-sensitive flag is set), optionally drops stop words, accumulates counts
in a "Counter" (an insertion-ordered mapping), and prints a ranked report.

Modelling conventions:
* Strings are Lean "String"s; character-class tests ("\w", "\s", lower) are
  modelled on the ASCII fragment of the corresponding Python Unicode classes
  ("Char.isAlphanum", "Char.isWhitespace", "Char.toLower"), which is exact on
  ASCII input.
* The Python "Counter" is modelled as an insertion-ordered association list
  "List (String × Nat)"; "incr" models "word_counts[w] += 1" (a new key is
  appended at the end, as in a Python dict).
* File I/O is modelled by a "FileResult" value saying what the attempt to
  open and read the file yields: the list of lines on success, or one of the
  four failure kinds caught in "count_words_from_file".
* Printing is modelled as the list of output lines produced by a run.
-/

/-- Python "str.split()" whitespace test and the regex class "\s"
(ASCII fragment). -/
def isSpaceChar (c : Char) : Bool := c.isWhitespace

/-- The regex class "\w" (ASCII fragment): alphanumeric or underscore. -/
def isWordChar (c : Char) : Bool := c.isAlphanum || c = '_'

/-- Python "str.strip()": remove leading and trailing whitespace. -/
def pyStrip (s : String) : String :=
  String.mk (((s.toList.dropWhile isSpaceChar).reverse.dropWhile isSpaceChar).reverse)

/-- Python "str.lower()" (ASCII fragment). -/
def pyLower (s : String) : String :=
  String.mk (s.toList.map Char.toLower)

/-- Helper for "pySplit": walks the characters, accumulating the current
token in reverse in "acc". -/
def splitAux : List Char → List Char → List (List Char)
  | [], acc => if acc = [] then [] else [acc.reverse]
  | c :: cs, acc =>
    if isSpaceChar c then
      if acc = [] then splitAux cs [] else acc.reverse :: splitAux cs []
    else splitAux cs (c :: acc)

/-- Python "str.split()" with no argument: split on runs of whitespace,
producing no empty tokens. Models "line.split()" at line 55. -/
def pySplit (s : String) : List String :=
  (splitAux s.toList []).map String.mk

/-- Python "str.ljust"-style padding used by the format specs "<20" and
"<10" in the report rows: left-justify in a field of at least "n". -/
def ljust (s : String) (n : Nat) : String :=
  s ++ String.mk (List.replicate (n - s.length) ' ')

/-- Python "str" of a bool, as printed by the f-strings in "main". -/
def pyBool (b : Bool) : String := if b then "True" else "False"

/-- Helper for "pyIntParse": a nonempty all-digit string to its value. -/
def digitsToNat : List Char → Option Nat
  | [] => none
  | ds => if ds.all Char.isDigit then
      some (ds.foldl (fun a c => 10 * a + (c.toNat - 48)) 0)
    else none

/-- Python "int(s)" on a string: surrounding whitespace ignored, optional
single sign, then a nonempty digit run; anything else raises ValueError,
modelled as "none". (Pythons underscore-grouping of digits is not modelled;
no claim depends on it.) -/
def pyIntParse (s : String) : Option Int :=
  match (pyStrip s).toList with
  | '+' :: ds => (digitsToNat ds).map fun n => (n : Int)
  | '-' :: ds => (digitsToNat ds).map fun n => -(n : Int)
  | ds => (digitsToNat ds).map fun n => (n : Int)

/-- Lines 13-25, "clean_word": lowercase, strip, delete every character that
is neither a word character nor whitespace; "None" when nothing is left. -/
def clean_word (word : String) : Option String :=
  let cleaned := String.mk
    ((pyStrip (pyLower word)).toList.filter fun c => isWordChar c || isSpaceChar c)
  if cleaned = "" then none else some cleaned

/-- Lines 41-47, the "common_words" stop-word set ("her" appears twice in
the source literal; a Python set deduplicates, and list membership here is
likewise unaffected). -/
def common_words : List String :=
  ["the", "a", "an", "and", "or", "but", "in", "on", "at", "to", "for", "of", "with",
   "by", "is", "are", "was", "were", "be", "been", "being", "have", "has", "had",
   "do", "does", "did", "will", "would", "could", "should", "may", "might", "must",
   "this", "that", "these", "those", "i", "you", "he", "she", "it", "we", "they",
   "me", "him", "her", "us", "them", "my", "your", "his", "its", "our", "their"]

/-- Line 71, "word_counts[cleaned_word] += 1" on a Counter: bump an existing
key in place, append a missing key at the end with count 1. -/
def incr (m : List (String × Nat)) (w : String) : List (String × Nat) :=
  match m with
  | [] => [(w, 1)]
  | (k, v) :: rest => if k = w then (k, v + 1) :: rest else (k, v) :: incr rest w

/-- Counter lookup with default 0 (as "Counter" reads a missing key). -/
def getCount (m : List (String × Nat)) (w : String) : Nat :=
  match m with
  | [] => 0
  | (k, v) :: rest => if k = w then v else getCount rest w

/-- Python "sum(word_counts.values())" at line 126. -/
def sumValues (m : List (String × Nat)) : Nat :=
  (m.map Prod.snd).sum

/-- Lines 58-61: the per-token normalization choice. In case-sensitive mode
the token is only stripped; otherwise "clean_word" runs. ("word.strip()"
can produce the empty string, which line 64 then skips, so "some """" here
plays the role of Python's falsy """".) -/
def normalizeToken (w : String) (caseSensitive : Bool) : Option String :=
  if caseSensitive then some (pyStrip w) else clean_word w

/-- Lines 57-71, the body of the token loop: normalize, skip empty, skip
stop words when requested, otherwise increment. -/
def processToken (m : List (String × Nat)) (w : String)
    (caseSensitive ignoreCommon : Bool) : List (String × Nat) :=
  match normalizeToken w caseSensitive with
  | none => m
  | some c =>
    if c = "" then m
    else if ignoreCommon = true ∧ pyLower c ∈ common_words then m
    else incr m c

/-- One line of the read loop (lines 53-71): split, then fold the token
loop over the tokens. -/
def countLine (m : List (String × Nat)) (line : String)
    (caseSensitive ignoreCommon : Bool) : List (String × Nat) :=
  (pySplit line).foldl (fun m w => processToken m w caseSensitive ignoreCommon) m

/-- The successful path of "count_words_from_file" (lines 49-71, 86): fold
the line loop over the file's lines, starting from the empty Counter. -/
def countLines (lines : List String) (caseSensitive ignoreCommon : Bool) :
    List (String × Nat) :=
  lines.foldl (fun m line => countLine m line caseSensitive ignoreCommon) []

/-- Whether a raw token survives normalization and stop-word filtering and
so reaches the "+= 1" at line 71 (the conditions of lines 64 and 68). -/
def survives (w : String) (caseSensitive ignoreCommon : Bool) : Bool :=
  match normalizeToken w caseSensitive with
  | none => false
  | some c =>
    !(c == "") && !(ignoreCommon && decide (pyLower c ∈ common_words))

/-- Line 103: keep the entries with count at least "min_count". Python
compares a positive count with a possibly negative int, so the bound is an
"Int". -/
def filteredCounts (m : List (String × Nat)) (minCount : Int) : List (String × Nat) :=
  m.filter fun p => minCount ≤ (p.2 : Int)

/-- The order in which line 110 sorts: ascending in the Python key
"(-count, word)", i.e. count descending, then word ascending. Python
compares strings lexicographically by code point, which is the
lexicographic order on their character lists. -/
def rankLE (a b : String × Nat) : Prop :=
  b.2 < a.2 ∨ (a.2 = b.2 ∧ a.1.toList ≤ b.1.toList)

instance : DecidableRel rankLE := fun a b =>
  inferInstanceAs (Decidable (b.2 < a.2 ∨ (a.2 = b.2 ∧ a.1.toList ≤ b.1.toList)))

/-- Line 110, "sorted(filtered_counts.items(), key=lambda x: (-x[1], x[0]))".
Python's sort is stable; with distinct keys (which "incr" guarantees) any
sort under the total order "rankLE" produces the same list, and insertion
sort is itself stable. -/
def sortedWords (m : List (String × Nat)) (minCount : Int) : List (String × Nat) :=
  List.insertionSort rankLE (filteredCounts m minCount)

/-- Python slice "l[:n]" for an arbitrary (possibly negative) int "n": a
nonnegative "n" takes the first "n" elements; a negative "n" drops the last
"-n" (empty result when "-n" exceeds the length). -/
def pySliceTo (l : List (String × Nat)) (n : Int) : List (String × Nat) :=
  if 0 ≤ n then l.take n.toNat else l.take (l.length - (-n).toNat)

/-- Lines 109-114, the filter/sort/truncate step of "display_results":
"if top_n:" is Python truthiness, so "None" and "0" both skip the slice. -/
def rank (m : List (String × Nat)) (topN : Option Int) (minCount : Int) :
    List (String × Nat) :=
  match topN with
  | none => sortedWords m minCount
  | some n => if n = 0 then sortedWords m minCount else pySliceTo (sortedWords m minCount) n

/-- One table row, line 122: both columns left-justified ("<20" and "<10"),
separated by one space. -/
def tableRow (w : String) (c : Nat) : String :=
  ljust w 20 ++ " " ++ ljust (toString c) 10

/-- The separator printed by lines 117, 119 and 124: 50 dashes. -/
def dashLine : String := String.mk (List.replicate 50 '-')

/-- Lines 89-126, "display_results", as the list of printed lines. The
leading "" models the "\n" that starts the header f-string. An empty
Counter and an empty filtered dict take the two early-return branches. -/
def display_results (m : List (String × Nat)) (topN : Option Int) (minCount : Int) :
    List String :=
  if m = [] then ["No words found or error occurred."]
  else if filteredCounts m minCount = [] then
    ["No words found with at least " ++ toString minCount ++ " occurrence(s)."]
  else
    ["", "Word Count Results (showing " ++ toString (rank m topN minCount).length ++ " words):",
     dashLine, ljust "Word" 20 ++ " " ++ ljust "Count" 10, dashLine]
    ++ (rank m topN minCount).map (fun p => tableRow p.1 p.2)
    ++ [dashLine,
        "Total unique words: " ++ toString m.length,
        "Total word occurrences: " ++ toString (sumValues m)]

/-- What the attempt to open and iterate the input file yields: its lines,
or one of the four failure kinds caught at lines 73-84. -/
inductive FileResult where
  | ok (lines : List String)
  | notFound
  | permissionDenied
  | decodeError
  | readError (msg : String)
deriving DecidableEq

/-- Lines 51-86, "count_words_from_file": the complete Counter on success,
or the error message printed by the matching except-branch. A failure
yields only the message — the partially built Counter is discarded, since
the function returns "None" from every handler. -/
def count_words_from_file (filePath : String) (fr : FileResult)
    (caseSensitive ignoreCommon : Bool) : Except String (List (String × Nat)) :=
  match fr with
  | .ok lines => .ok (countLines lines caseSensitive ignoreCommon)
  | .notFound => .error ("Error: File \x27" ++ filePath ++ "\x27 not found.")
  | .permissionDenied =>
      .error ("Error: Permission denied to read file \x27" ++ filePath ++ "\x27.")
  | .decodeError =>
      .error ("Error: Unable to decode file \x27" ++ filePath ++ "\x27. Try a different encoding.")
  | .readError msg => .error ("Error reading file: " ++ msg)

/-- First index of "x" in "l" (Python "list.index", called only under an
"in" guard, so the not-found value is never reached by "main"). -/
def pyIndex (x : String) : List String → Nat
  | [] => 0
  | a :: as => if a = x then 0 else pyIndex x as + 1

/-- Lines 148-156 and 158-167, one optional-int flag: if the flag occurs in
"sys.argv" and something follows its first occurrence, "int()" parses that
value — a ValueError is the error branch (lines 155, 166). If nothing
follows the flag, no assignment happens and parsing silently succeeds with
"none". -/
def parseFlag (argv : List String) (flag : String) : Except Unit (Option Int) :=
  if flag ∈ argv then
    if pyIndex flag argv + 1 < argv.length then
      match pyIntParse (argv.getD (pyIndex flag argv + 1) "") with
      | some n => .ok (some n)
      | none => .error ()
    else .ok none
  else .ok none

/-- Lines 169-171: the three status lines printed before the file is
touched. -/
def preambleLines (filePath : String) (caseSensitive ignoreCommon : Bool) : List String :=
  ["Analyzing file: " ++ filePath,
   "Case sensitive: " ++ pyBool caseSensitive,
   "Ignore common words: " ++ pyBool ignoreCommon]

/-- The observable outcome of a run: the printed lines, and whether the
program reached the point of opening the input file. -/
structure MainResult where
  output : List String
  fileAccessed : Bool
deriving DecidableEq

/-- Lines 169-179 of "main": print the preamble, run the counter, then
either display results or print the trailing failure line. -/
def runAnalysis (filePath : String) (caseSensitive ignoreCommon : Bool)
    (topN : Option Int) (minCount : Int) (fr : FileResult) : MainResult :=
  match count_words_from_file filePath fr caseSensitive ignoreCommon with
  | .ok counts =>
      ⟨preambleLines filePath caseSensitive ignoreCommon
        ++ display_results counts topN minCount, true⟩
  | .error e =>
      ⟨preambleLines filePath caseSensitive ignoreCommon
        ++ [e, "Failed to process the file."], true⟩

/-- Lines 131-139: the usage text printed when no file argument is given. -/
def usageLines : List String :=
  ["Usage: python repetedwords.py <text_file> [options]",
   "", "Options:",
   "  --case-sensitive    Treat words as case sensitive",
   "  --ignore-common     Ignore common words (the, and, etc.)",
   "  --top <number>      Show only top N most frequent words",
   "  --min-count <number> Show only words with at least N occurrences",
   "", "Example: python repetedwords.py sample.txt --top 10 --ignore-common"]

/-- Lines 129-179, "main" (the name "main" is reserved by Lean, hence "pyMain"): "argv" is the full "sys.argv" including the
program name, and "fr" is what the file system answers for "argv[1]".
Flag membership is checked against all of "argv", as the source does. -/
def pyMain (argv : List String) (fr : FileResult) : MainResult :=
  if argv.length < 2 then ⟨usageLines, false⟩
  else
    match parseFlag argv "--top" with
    | .error _ => ⟨["Error: Invalid --top parameter. Must be a number."], false⟩
    | .ok topN =>
      match parseFlag argv "--min-count" with
      | .error _ => ⟨["Error: Invalid --min-count parameter. Must be a number."], false⟩
      | .ok mc =>
        runAnalysis (argv.getD 1 "")
          (decide ("--case-sensitive" ∈ argv)) (decide ("--ignore-common" ∈ argv))
          topN (mc.getD 1) fr

/-- All tokens of the whole file, in reading order. -/
def allTokens (lines : List String) : List String :=
  (lines.map pySplit).flatten

/-- Output lines that report a failure: the four messages printed by the
except-branches of "count_words_from_file" all start with "Error", and
line 179 prints the trailing generic message. -/
def isFailureMessage (s : String) : Bool :=
  (s.toList.take 5 == "Error".toList) || (s == "Failed to process the file.")

/-- The invariant of the frequency mapping: no empty key, every count
strictly positive. -/
def goodMapping (m : List (String × Nat)) : Prop :=
  ∀ p ∈ m, p.1 ≠ "" ∧ 0 < p.2

section HelperLemmas

theorem getCount_incr (m : List (String × Nat)) (w : String) :
    getCount (incr m w) w = getCount m w + 1 := by
  induction m with
  | nil => simp [incr, getCount]
  | cons p rest ih =>
    obtain ⟨k, v⟩ := p
    by_cases h : k = w
    · simp [incr, getCount, h]
    · simp [incr, getCount, h, ih]

theorem incr_ne (m : List (String × Nat)) (w : String) : incr m w ≠ m := by
  intro h
  have := getCount_incr m w
  rw [h] at this
  omega

theorem sumValues_incr (m : List (String × Nat)) (w : String) :
    sumValues (incr m w) = sumValues m + 1 := by
  induction m with
  | nil => simp [incr, sumValues]
  | cons p rest ih =>
    obtain ⟨k, v⟩ := p
    by_cases h : k = w
    · simp [incr, sumValues, h]; omega
    · simp only [incr, sumValues, if_neg h, List.map_cons, List.sum_cons] at ih ⊢
      omega

theorem goodMapping_incr (m : List (String × Nat)) (w : String)
    (hw : w ≠ "") (h : goodMapping m) : goodMapping (incr m w) := by
  induction m with
  | nil =>
    intro p hp
    simp [incr] at hp
    subst hp
    exact ⟨hw, Nat.one_pos⟩
  | cons q rest ih =>
    obtain ⟨k, v⟩ := q
    by_cases hk : k = w
    · intro p hp
      simp only [incr, if_pos hk] at hp
      rcases List.mem_cons.mp hp with h1 | h2
      · subst h1
        have := h (k, v) (List.mem_cons_self ..)
        exact ⟨this.1, by omega⟩
      · exact h p (List.mem_cons_of_mem _ h2)
    · intro p hp
      simp only [incr, if_neg hk] at hp
      rcases List.mem_cons.mp hp with h1 | h2
      · subst h1
        exact h (k, v) (List.mem_cons_self ..)
      · exact ih (fun q hq => h q (List.mem_cons_of_mem _ hq)) p h2

theorem processToken_none (m : List (String × Nat)) (w : String) (cs ic : Bool)
    (hn : normalizeToken w cs = none) : processToken m w cs ic = m := by
  unfold processToken
  rw [hn]

theorem processToken_some (m : List (String × Nat)) (w : String) (cs ic : Bool)
    (c : String) (hn : normalizeToken w cs = some c) :
    processToken m w cs ic
      = if c = "" then m
        else if ic = true ∧ pyLower c ∈ common_words then m
        else incr m c := by
  unfold processToken
  rw [hn]

theorem survives_none (w : String) (cs ic : Bool)
    (hn : normalizeToken w cs = none) : survives w cs ic = false := by
  unfold survives
  rw [hn]

theorem survives_some (w : String) (cs ic : Bool) (c : String)
    (hn : normalizeToken w cs = some c) :
    survives w cs ic = (!(c == "") && !(ic && decide (pyLower c ∈ common_words))) := by
  unfold survives
  rw [hn]

theorem sumValues_processToken (m : List (String × Nat)) (w : String)
    (cs ic : Bool) :
    sumValues (processToken m w cs ic)
      = sumValues m + (if survives w cs ic = true then 1 else 0) := by
  cases hn : normalizeToken w cs with
  | none => rw [processToken_none m w cs ic hn, survives_none w cs ic hn]; simp
  | some c =>
    rw [processToken_some m w cs ic c hn, survives_some w cs ic c hn]
    by_cases hc : c = ""
    · simp [hc]
    · by_cases hm : ic = true ∧ pyLower c ∈ common_words
      · simp [hc, hm]
      · rw [if_neg hc, if_neg hm, sumValues_incr]
        have : (!(c == "") && !(ic && decide (pyLower c ∈ common_words))) = true := by
          simp only [Bool.and_eq_true, Bool.not_eq_true', beq_eq_false_iff_ne, ne_eq]
          refine ⟨hc, ?_⟩
          by_cases hic : ic = true
          · simp only [hic, Bool.true_and, decide_eq_false_iff_not]
            intro hmem
            exact hm ⟨hic, hmem⟩
          · simp [Bool.eq_false_iff.mpr hic]
        rw [if_pos this]

theorem sumValues_foldTokens (ws : List String) (m : List (String × Nat))
    (cs ic : Bool) :
    sumValues (ws.foldl (fun m w => processToken m w cs ic) m)
      = sumValues m + (ws.filter fun w => survives w cs ic).length := by
  induction ws generalizing m with
  | nil => simp
  | cons w ws ih =>
    simp only [List.foldl_cons, List.filter_cons]
    rw [ih]
    by_cases h : survives w cs ic = true
    · simp only [if_pos h, List.length_cons]
      rw [sumValues_processToken, if_pos h]
      omega
    · simp only [if_neg h]
      rw [sumValues_processToken, if_neg h]
      omega

theorem sumValues_countLines (lines : List String) (cs ic : Bool) :
    sumValues (countLines lines cs ic)
      = ((allTokens lines).filter fun w => survives w cs ic).length := by
  suffices h : ∀ m, sumValues (lines.foldl (fun m line => countLine m line cs ic) m)
      = sumValues m + ((allTokens lines).filter fun w => survives w cs ic).length by
    simpa [countLines, sumValues] using h []
  induction lines with
  | nil => intro m; simp [allTokens]
  | cons l ls ih =>
    intro m
    simp only [List.foldl_cons, allTokens, List.map_cons, List.flatten_cons,
      List.filter_append, List.length_append]
    rw [ih]
    unfold countLine
    rw [sumValues_foldTokens]
    simp [allTokens]
    omega

instance : IsTrans (String × Nat) rankLE where
  trans a b c hab hbc := by
    rcases hab with h | ⟨e, w⟩ <;> rcases hbc with h2 | ⟨e2, w2⟩
    · exact Or.inl (by omega)
    · exact Or.inl (by omega)
    · exact Or.inl (by omega)
    · exact Or.inr ⟨by omega, le_trans w w2⟩

instance : IsTotal (String × Nat) rankLE where
  total a b := by
    rcases Nat.lt_trichotomy a.2 b.2 with h | h | h
    · exact Or.inr (Or.inl h)
    · rcases le_total a.1.toList b.1.toList with hw | hw
      · exact Or.inl (Or.inr ⟨h, hw⟩)
      · exact Or.inr (Or.inr ⟨h.symm, hw⟩)
    · exact Or.inl (Or.inl h)

instance : IsAntisymm (String × Nat) rankLE where
  antisymm a b hab hba := by
    have e2 : a.2 = b.2 := by
      rcases hab with h | ⟨e, _⟩ <;> rcases hba with h2 | ⟨e2, _⟩ <;> omega
    have e1 : a.1 = b.1 := by
      rcases hab with h | ⟨e, w⟩
      · exact absurd h (by omega)
      · rcases hba with h2 | ⟨e2, w2⟩
        · exact absurd h2 (by omega)
        · exact String.toList_inj.mp (le_antisymm w w2)
    exact Prod.ext e1 e2

theorem sortedWords_sorted (m : List (String × Nat)) (minCount : Int) :
    List.Sorted rankLE (sortedWords m minCount) :=
  List.sorted_insertionSort rankLE _

theorem rank_none (m : List (String × Nat)) (minCount : Int) :
    rank m none minCount = sortedWords m minCount := rfl

theorem rank_some (m : List (String × Nat)) (n minCount : Int) :
    rank m (some n) minCount
      = if n = 0 then sortedWords m minCount
        else pySliceTo (sortedWords m minCount) n := rfl

theorem rank_eq_take (m : List (String × Nat)) (topN : Option Int) (minCount : Int) :
    ∃ n, rank m topN minCount = (sortedWords m minCount).take n := by
  cases topN with
  | none => rw [rank_none]; exact ⟨(sortedWords m minCount).length, (List.take_length _).symm⟩
  | some n =>
    rw [rank_some]
    by_cases h : n = 0
    · rw [if_pos h]
      exact ⟨(sortedWords m minCount).length, (List.take_length _).symm⟩
    · rw [if_neg h]
      unfold pySliceTo
      by_cases hn : 0 ≤ n
      · rw [if_pos hn]; exact ⟨n.toNat, rfl⟩
      · rw [if_neg hn]; exact ⟨_, rfl⟩

theorem rank_sorted (m : List (String × Nat)) (topN : Option Int) (minCount : Int) :
    List.Sorted rankLE (rank m topN minCount) := by
  obtain ⟨n, hn⟩ := rank_eq_take m topN minCount
  rw [hn]
  exact List.Pairwise.sublist (List.take_sublist n _) (sortedWords_sorted m minCount)

theorem sortedWords_perm_congr (m m' : List (String × Nat)) (minCount : Int)
    (h : List.Perm m m') : sortedWords m minCount = sortedWords m' minCount := by
  apply List.eq_of_perm_of_sorted (r := rankLE)
  · exact ((List.perm_insertionSort _ _).trans (h.filter _)).trans
      (List.perm_insertionSort _ _).symm
  · exact sortedWords_sorted m minCount
  · exact sortedWords_sorted m' minCount

theorem rank_perm_congr (m m' : List (String × Nat)) (topN : Option Int)
    (minCount : Int) (h : List.Perm m m') :
    rank m topN minCount = rank m' topN minCount := by
  unfold rank pySliceTo
  rw [sortedWords_perm_congr m m' minCount h]

theorem splitAux_mem (l : List Char) (acc t : List Char)
    (hacc : ∀ c ∈ acc, isSpaceChar c = false)
    (ht : t ∈ splitAux l acc) :
    t ≠ [] ∧ ∀ c ∈ t, isSpaceChar c = false := by
  induction l generalizing acc with
  | nil =>
    unfold splitAux at ht
    by_cases h : acc = []
    · simp [h] at ht
    · rw [if_neg h] at ht
      rcases List.mem_singleton.mp ht with rfl
      refine ⟨by simpa using h, fun c hc => hacc c (by simpa using hc)⟩
  | cons a l ih =>
    unfold splitAux at ht
    by_cases hs : isSpaceChar a = true
    · rw [if_pos hs] at ht
      by_cases h : acc = []
      · rw [if_pos h] at ht
        exact ih [] (by simp) ht
      · rw [if_neg h] at ht
        rcases List.mem_cons.mp ht with h1 | h2
        · subst h1
          refine ⟨by simpa using h, fun c hc => hacc c (by simpa using hc)⟩
        · exact ih [] (by simp) h2
    · rw [if_neg hs] at ht
      refine ih (a :: acc) ?_ ht
      intro c hc
      rcases List.mem_cons.mp hc with h1 | h2
      · subst h1; exact Bool.eq_false_iff.mpr hs
      · exact hacc c h2

theorem pySplit_tokens (line w : String) (hw : w ∈ pySplit line) :
    w ≠ "" ∧ ∀ c ∈ w.toList, isSpaceChar c = false := by
  unfold pySplit at hw
  rcases List.mem_map.mp hw with ⟨t, ht, rfl⟩
  have h := splitAux_mem line.toList [] t (by simp) ht
  refine ⟨?_, ?_⟩
  · intro he
    exact h.1 (by simpa using congrArg String.toList he)
  · intro c hc
    exact h.2 c hc

theorem dropWhile_eq_self_of (l : List Char)
    (h : ∀ c ∈ l, isSpaceChar c = false) :
    l.dropWhile isSpaceChar = l := by
  cases l with
  | nil => rfl
  | cons a l =>
    rw [List.dropWhile_cons]
    simp [h a (List.mem_cons_self ..)]

theorem pyStrip_eq_self (w : String)
    (h : ∀ c ∈ w.toList, isSpaceChar c = false) :
    pyStrip w = w := by
  unfold pyStrip
  rw [dropWhile_eq_self_of _ h, dropWhile_eq_self_of, List.reverse_reverse]
  · cases w
    rfl
  · intro c hc
    exact h c (by simpa using hc)

end HelperLemmas

/-- C1, counterexample: the claim says a "topN" of at most 0 yields an empty
ranked sequence, but "if top_n:" is false for the int 0, so "top_n = 0"
skips the truncation entirely and the whole mapping survives: on the
one-entry mapping with count 1 and "min_count = 1", "topN = 0" returns that
entry, not the empty sequence. -/
theorem C1_counterexample : ¬ rank [("a", 1)] (some 0) 1 = [] := by decide

/-- C1 (amended): "topN = 0" applies no truncation and returns every entry
surviving the "minCount" filter; a negative "topN" returns all but the last
"-topN" of the sorted entries (Python slice semantics, empty only when
"-topN" reaches their number); and a "topN" larger than the number of
surviving entries returns all of them. -/
theorem C1_truncation (m : List (String × Nat)) (minCount n : Int) :
    rank m (some 0) minCount = sortedWords m minCount
    ∧ (n < 0 → rank m (some n) minCount
        = (sortedWords m minCount).take
            ((sortedWords m minCount).length - (-n).toNat))
    ∧ (((filteredCounts m minCount).length : Int) < n →
        rank m (some n) minCount = sortedWords m minCount) := by
  refine ⟨by rw [rank_some, if_pos rfl], ?_, ?_⟩
  · intro hn
    rw [rank_some, if_neg (by omega)]
    unfold pySliceTo
    rw [if_neg (by omega)]
  · intro hn
    have hlen : (sortedWords m minCount).length = (filteredCounts m minCount).length :=
      List.length_insertionSort _ _
    rw [rank_some, if_neg (by omega)]
    unfold pySliceTo
    rw [if_pos (by omega)]
    apply List.take_of_length_le
    omega

/-- C1, witness: on the two-entry mapping, "topN = -1" drops the last sorted
entry and "topN = 5" (larger than the 2 surviving entries) keeps both. -/
theorem C1_truncation_witness :
    rank [("a", 1), ("b", 2)] (some (-1)) 1 = [("b", 2)]
    ∧ rank [("a", 1), ("b", 2)] (some 5) 1 = [("b", 2), ("a", 1)] := by
  constructor
  · rw [(C1_truncation [("a", 1), ("b", 2)] 1 (-1)).2.1 (by decide)]
    decide
  · rw [(C1_truncation [("a", 1), ("b", 2)] 1 5).2.2 (by decide)]
    decide

/-- C4: with "ignoreCommon" set, a token whose normalization under either
"caseSensitive" setting yields the nonempty canonical word "c" is dropped
exactly when the lowercase form of "c" is in the stop-word set — the
membership test folds case even when counting is case-sensitive. -/
theorem C4_stop_words (caseSensitive : Bool) (m : List (String × Nat))
    (w c : String) (hc : normalizeToken w caseSensitive = some c) (hne : c ≠ "") :
    processToken m w caseSensitive true
      = (if pyLower c ∈ common_words then m else incr m c)
    ∧ (processToken m w caseSensitive true = m ↔ pyLower c ∈ common_words) := by
  have heq : processToken m w caseSensitive true
      = (if pyLower c ∈ common_words then m else incr m c) := by
    rw [processToken_some m w caseSensitive true c hc, if_neg hne]
    by_cases hm : pyLower c ∈ common_words
    · rw [if_pos hm, if_pos ⟨rfl, hm⟩]
    · rw [if_neg hm, if_neg (fun hx => hm hx.2)]
  refine ⟨heq, ?_, ?_⟩
  · intro h
    by_contra hm
    rw [heq, if_neg hm] at h
    exact incr_ne m c h
  · intro hm
    rw [heq, if_pos hm]

/-- C4, witness: in case-sensitive counting, the verbatim token "The" is
still dropped as a stop word (its lowercase form is listed), while "Cat."
is counted. -/
theorem C4_stop_words_witness :
    processToken [] "The" true true = []
    ∧ processToken [] "Cat." true true = [("Cat.", 1)] := by
  constructor
  · rw [(C4_stop_words true [] "The" "The" (by decide) (by decide)).1]
    decide
  · rw [(C4_stop_words true [] "Cat." "Cat." (by decide) (by decide)).1]
    decide

/-- C6: every ranked output is pairwise ordered by count descending and then
word ascending (for entries A before B: either A has the larger count, or
equal counts and A's word is lexicographically at most B's), and the output
is the same for any two mappings with the same contents in any insertion
order. -/
theorem C6_sorted (m m' : List (String × Nat)) (topN : Option Int) (minCount : Int) :
    List.Pairwise
      (fun a b : String × Nat => b.2 < a.2 ∨ (a.2 = b.2 ∧ a.1.toList ≤ b.1.toList))
      (rank m topN minCount)
    ∧ (List.Perm m m' → rank m topN minCount = rank m' topN minCount) :=
  ⟨rank_sorted m topN minCount, rank_perm_congr m m' topN minCount⟩

/-- C6, witness: the two insertion orders of the same two entries rank
identically, and the claimed pairwise order holds on a concrete mix of tied
and distinct counts. -/
theorem C6_sorted_witness :
    rank [("a", 1), ("b", 2)] none 1 = rank [("b", 2), ("a", 1)] none 1
    ∧ rank [("b", 1), ("a", 1), ("c", 2)] none 1 = [("c", 2), ("a", 1), ("b", 1)] :=
  ⟨(C6_sorted [("a", 1), ("b", 2)] [("b", 2), ("a", 1)] none 1).2 (by decide),
   by decide⟩

/-- C7: one aggregation step preserves the mapping invariant under both
"caseSensitive" settings and both "ignoreCommon" settings: no key is the
empty string and every count is strictly positive. -/
theorem C7_invariant (m : List (String × Nat)) (w : String)
    (caseSensitive ignoreCommon : Bool) (h : goodMapping m) :
    goodMapping (processToken m w caseSensitive ignoreCommon) := by
  cases hn : normalizeToken w caseSensitive with
  | none => rw [processToken_none m w _ _ hn]; exact h
  | some c =>
    rw [processToken_some m w _ _ c hn]
    by_cases hc : c = ""
    · rw [if_pos hc]; exact h
    · rw [if_neg hc]
      by_cases hm : ignoreCommon = true ∧ pyLower c ∈ common_words
      · rw [if_pos hm]; exact h
      · rw [if_neg hm]
        exact goodMapping_incr m c hc h

/-- C7, witness: starting from the empty mapping (trivially invariant), one
step on a concrete token yields an invariant mapping. -/
theorem C7_invariant_witness :
    goodMapping (processToken [] "Hi!" false false) :=
  C7_invariant [] "Hi!" false false (by intro p hp; simp at hp)

/-- C8: on the single line "The cat sat on the mat. The cat was happy."
with default options, aggregation yields the mapping counting "the" 3
times, "cat" twice and each other word once, the trailing dots stripped. -/
theorem C8_scenario1 :
    countLines ["The cat sat on the mat. The cat was happy."] false false
      = [("the", 3), ("cat", 2), ("sat", 1), ("on", 1), ("mat", 1),
         ("was", 1), ("happy", 1)] := by decide

/-- C5: the counts in the aggregated mapping sum to the number of tokens
that survive normalization and stop-word filtering (each surviving token
increments exactly one count by 1), and when the report table is shown its
"Total word occurrences" line prints exactly that sum. -/
theorem C5_total (lines : List String) (caseSensitive ignoreCommon : Bool)
    (topN : Option Int) (minCount : Int)
    (hm : countLines lines caseSensitive ignoreCommon ≠ [])
    (hf : filteredCounts (countLines lines caseSensitive ignoreCommon) minCount ≠ []) :
    sumValues (countLines lines caseSensitive ignoreCommon)
      = ((allTokens lines).filter fun w => survives w caseSensitive ignoreCommon).length
    ∧ ("Total word occurrences: "
        ++ toString (sumValues (countLines lines caseSensitive ignoreCommon)))
      ∈ display_results (countLines lines caseSensitive ignoreCommon) topN minCount := by
  refine ⟨sumValues_countLines lines caseSensitive ignoreCommon, ?_⟩
  unfold display_results
  rw [if_neg hm, if_neg hf]
  simp

/-- C5, witness: on a concrete two-line input, the counts sum to the 4
surviving tokens and the report prints that total. -/
theorem C5_total_witness :
    sumValues (countLines ["a a b", "c"] false false)
      = ((allTokens ["a a b", "c"]).filter fun w => survives w false false).length
    ∧ ("Total word occurrences: "
        ++ toString (sumValues (countLines ["a a b", "c"] false false)))
      ∈ display_results (countLines ["a a b", "c"] false false) none 1 :=
  C5_total ["a a b", "c"] false false none 1 (by decide) (by decide)

/-- C9: in case-sensitive mode every whitespace-delimited token is counted
verbatim: it is nonempty, contains no whitespace, stripping is a no-op on
it, and the aggregation step keys the mapping by the raw token itself. -/
theorem C9_verbatim (line w : String) (m : List (String × Nat))
    (hw : w ∈ pySplit line) :
    w ≠ "" ∧ (∀ c ∈ w.toList, isSpaceChar c = false) ∧ pyStrip w = w
    ∧ processToken m w true false = incr m w := by
  obtain ⟨hne, hns⟩ := pySplit_tokens line w hw
  have hstrip := pyStrip_eq_self w hns
  refine ⟨hne, hns, hstrip, ?_⟩
  have hn : normalizeToken w true = some w := by
    unfold normalizeToken
    rw [if_pos rfl, hstrip]
  rw [processToken_some m w true false w hn, if_neg hne, if_neg]
  rintro ⟨h, -⟩
  cases h

/-- C9, witness: the punctuated token "cat." from a concrete line is kept
verbatim as its own key, distinct from "cat". -/
theorem C9_verbatim_witness :
    pyStrip "cat." = "cat."
    ∧ processToken [("cat", 1)] "cat." true false = [("cat", 1), ("cat.", 1)] := by
  have h := C9_verbatim "cat. cat" "cat." [("cat", 1)] (by decide)
  refine ⟨h.2.2.1, ?_⟩
  rw [h.2.2.2]
  decide

/-- C2, counterexample: the claim says a flag given without its required
following value is reported as a parameter error before the file is read,
but "main" guards the assignment with "if top_index + 1 < len(sys.argv)"
and silently continues: with "--top" as the last argument the file is read
and no invalid-parameter message is printed. -/
theorem C2_counterexample :
    (pyMain ["repetedwords.py", "f.txt", "--top"] (FileResult.ok ["hello world"])).fileAccessed
      = true
    ∧ "Error: Invalid --top parameter. Must be a number."
        ∉ (pyMain ["repetedwords.py", "f.txt", "--top"] (FileResult.ok ["hello world"])).output
    ∧ "Error: Invalid --min-count parameter. Must be a number."
        ∉ (pyMain ["repetedwords.py", "f.txt", "--top"] (FileResult.ok ["hello world"])).output := by
  refine ⟨rfl, ?_, ?_⟩ <;> decide

/-- C2 (amended): a present "--top"/"--min-count" whose following value is
not a valid integer makes the program print the invalid-parameter error and
return before any file access; but a flag present as the last argument,
with no following value at all, is silently ignored and parsed as absent. -/
theorem C2_flag_errors (argv : List String) (fr : FileResult) (t : Option Int)
    (hlen : 2 ≤ argv.length) :
    ("--top" ∈ argv → pyIndex "--top" argv + 1 < argv.length →
      pyIntParse (argv.getD (pyIndex "--top" argv + 1) "") = none →
      pyMain argv fr = ⟨["Error: Invalid --top parameter. Must be a number."], false⟩)
    ∧ ("--min-count" ∈ argv → pyIndex "--min-count" argv + 1 < argv.length →
      pyIntParse (argv.getD (pyIndex "--min-count" argv + 1) "") = none →
      parseFlag argv "--top" = Except.ok t →
      pyMain argv fr = ⟨["Error: Invalid --min-count parameter. Must be a number."], false⟩)
    ∧ (∀ flag, flag ∈ argv → pyIndex flag argv + 1 = argv.length →
      parseFlag argv flag = Except.ok none) := by
  refine ⟨?_, ?_, ?_⟩
  · intro hmem hidx hparse
    have hp : parseFlag argv "--top" = Except.error () := by
      unfold parseFlag
      rw [if_pos hmem, if_pos hidx, hparse]
    unfold pyMain
    rw [if_neg (by omega), hp]
  · intro hmem hidx hparse ht
    have hp : parseFlag argv "--min-count" = Except.error () := by
      unfold parseFlag
      rw [if_pos hmem, if_pos hidx, hparse]
    unfold pyMain
    rw [if_neg (by omega), ht, hp]
  · intro flag hmem hidx
    unfold parseFlag
    rw [if_pos hmem, if_neg (by omega)]

/-- C2, witness: "--top abc" makes the run print exactly the
invalid-parameter message without touching the file, and a trailing
"--min-count" with no value parses as absent. -/
theorem C2_flag_errors_witness :
    pyMain ["repetedwords.py", "f.txt", "--top", "abc"] (FileResult.ok ["w"])
      = ⟨["Error: Invalid --top parameter. Must be a number."], false⟩
    ∧ parseFlag ["repetedwords.py", "f.txt", "--min-count"] "--min-count"
      = Except.ok none := by
  constructor
  · exact (C2_flag_errors ["repetedwords.py", "f.txt", "--top", "abc"]
      (FileResult.ok ["w"]) none (by decide)).1 (by decide) (by decide) (by decide)
  · exact (C2_flag_errors ["repetedwords.py", "f.txt", "--min-count"]
      (FileResult.ok ["w"]) none (by decide)).2.2 "--min-count" (by decide) (by decide)

/-- C3, counterexample: the claim says a failing run shows a single error
message and never more than one, but on a missing file "main" prints both
the specific message from "count_words_from_file" and the generic
"Failed to process the file." from line 179 — two failure messages (though
indeed no result lines). -/
theorem C3_counterexample :
    (pyMain ["repetedwords.py", "missing.txt"] FileResult.notFound).output
      = ["Analyzing file: missing.txt", "Case sensitive: False",
         "Ignore common words: False",
         "Error: File \x27missing.txt\x27 not found.",
         "Failed to process the file."]
    ∧ ¬ (((pyMain ["repetedwords.py", "missing.txt"]
            FileResult.notFound).output.filter isFailureMessage).length ≤ 1) := by
  refine ⟨by decide, by decide⟩

/-- C3 (amended): a failing run displays no partial results — no report
lines at all — and its failure is reported by exactly two messages: the
specific error printed inside "count_words_from_file" and the generic
trailing "Failed to process the file.". -/
theorem C3_failure_report (argv : List String) (fr : FileResult) (t mc : Option Int)
    (e : String) (hlen : 2 ≤ argv.length)
    (ht : parseFlag argv "--top" = Except.ok t)
    (hmc : parseFlag argv "--min-count" = Except.ok mc)
    (he : count_words_from_file (argv.getD 1 "") fr
      (decide ("--case-sensitive" ∈ argv)) (decide ("--ignore-common" ∈ argv))
      = Except.error e) :
    (pyMain argv fr).output
      = preambleLines (argv.getD 1 "")
          (decide ("--case-sensitive" ∈ argv)) (decide ("--ignore-common" ∈ argv))
        ++ [e, "Failed to process the file."] := by
  unfold pyMain
  rw [if_neg (by omega), ht, hmc]
  unfold runAnalysis
  rw [he]

/-- C3, witness: the amended statement at a concrete failing run — a
permission error yields the preamble plus exactly the two failure lines. -/
theorem C3_failure_report_witness :
    (pyMain ["repetedwords.py", "secret.txt"] FileResult.permissionDenied).output
      = ["Analyzing file: secret.txt", "Case sensitive: False",
         "Ignore common words: False",
         "Error: Permission denied to read file \x27secret.txt\x27.",
         "Failed to process the file."] := by
  rw [C3_failure_report ["repetedwords.py", "secret.txt"] FileResult.permissionDenied
    none none _ (by decide) rfl rfl rfl]
  decide

/-- C10: whenever a file path is supplied and both optional flags parse,
the output starts with the three status lines built only from the command
line — for every file-system answer, including all failures, so the
preamble is printed before any file access. -/
theorem C10_preamble (argv : List String) (fr : FileResult) (t mc : Option Int)
    (hlen : 2 ≤ argv.length)
    (ht : parseFlag argv "--top" = Except.ok t)
    (hmc : parseFlag argv "--min-count" = Except.ok mc) :
    ∃ rest, (pyMain argv fr).output
      = preambleLines (argv.getD 1 "")
          (decide ("--case-sensitive" ∈ argv)) (decide ("--ignore-common" ∈ argv))
        ++ rest := by
  unfold pyMain
  rw [if_neg (by omega), ht, hmc]
  unfold runAnalysis
  cases count_words_from_file (argv.getD 1 "") fr
      (decide ("--case-sensitive" ∈ argv)) (decide ("--ignore-common" ∈ argv)) with
  | ok counts => exact ⟨_, rfl⟩
  | error e => exact ⟨_, rfl⟩

/-- C10, witness: on a failing run with the case-sensitive flag set, the
output still starts with the three status lines. -/
theorem C10_preamble_witness :
    ∃ rest,
      (pyMain ["repetedwords.py", "x.txt", "--case-sensitive"]
        FileResult.decodeError).output
      = ["Analyzing file: x.txt", "Case sensitive: True",
         "Ignore common words: False"] ++ rest := by
  have h := C10_preamble ["repetedwords.py", "x.txt", "--case-sensitive"]
    FileResult.decodeError none none (by decide) rfl rfl
  simpa using h
